import Mathlib

/-!
Verification of the Log panel pipeline of `studio`
(`src/packages/studio-base/src/panels/Log/index.tsx` and
`src/packages/studio-base/src/components/Timestamp.tsx`).

The development shallowly embeds the data model and the operations of the
panel: the message filter, the topic selector, the autoscroll controller,
the seen-node-name accumulator, the cell renderer and the timestamp
formatting predicate.
-/

namespace Studio

/-- A log record as the filter sees it (`LogMessageEvent.message` fields
used by the filtering predicate): integer severity `level`, optional
emitter `name`, display text `message`. -/
structure LogRecord where
  level : Int
  name : Option String
  message : String
deriving DecidableEq, Repr

/-- The user-controlled filter configuration, from `Config` in
`panels/Log/index.tsx`: `minLogLevel` and the list of search terms. -/
structure FilterSpec where
  minLogLevel : Int
  searchTerms : List String
deriving DecidableEq, Repr

/-- Substring containment on lists: `listContains needle hay = true` iff
`needle` occurs contiguously inside `hay`.  This is the semantics of the
JavaScript `String.prototype.includes` test used for search terms. -/
def listContains (needle : List Char) : List Char → Bool
  | [] => needle.isEmpty
  | c :: rest => needle.isPrefixOf (c :: rest) || listContains needle rest

/-- Substring containment on strings (JS `haystack.includes(needle)`). -/
def strIncludes (haystack needle : String) : Bool :=
  listContains needle.toList haystack.toList

/-- Modelled from the spec: the module
`src/packages/studio-base/src/panels/Log/filterMessages.ts` is imported by
`index.tsx` but its source is not in the repository excerpt; only its
caller is.  Spec section 4.2 gives the per-record predicate:
`record.level >= spec.minLogLevel AND (spec.searchTerms is empty OR at
least one term in spec.searchTerms is found within record.message OR
record.name)`, with substring containment as the match semantics.
A missing emitter name matches no non-empty term. -/
def matchesFilter (spec : FilterSpec) (r : LogRecord) : Bool :=
  decide (spec.minLogLevel ≤ r.level) &&
    (spec.searchTerms.isEmpty ||
      spec.searchTerms.any fun term =>
        strIncludes r.message term || strIncludes (r.name.getD "") term)

/-- Modelled from the spec: the message filter of section 4.2,
`filter(records, spec)`, keeping in input order exactly the records that
pass `matchesFilter`. -/
def filterMessages (records : List LogRecord) (spec : FilterSpec) :
    List LogRecord :=
  records.filter (matchesFilter spec)

/-- A topic descriptor: `{ name, datatype }` as supplied by the data
source (`useDataSourceInfo`). -/
structure TopicDescriptor where
  name : String
  datatype : String
deriving DecidableEq, Repr

/-- The fixed allow-list `SUPPORTED_DATATYPES` of `panels/Log/index.tsx`. -/
def SUPPORTED_DATATYPES : List String :=
  ["rosgraph_msgs/Log", "rcl_interfaces/msg/Log", "ros.rosgraph_msgs.Log",
   "ros.rcl_interfaces.Log", "foxglove.Log"]

/-- `availableTopics` of `panels/Log/index.tsx`: the topics whose datatype
is in the allow-list, in original order. -/
def availableTopics (topics : List TopicDescriptor) (allowed : List String) :
    List TopicDescriptor :=
  topics.filter fun topic => allowed.contains topic.datatype

/-- The topic selection of `panels/Log/index.tsx`:
`config.topicToRender ?? defaultTopicToRender ?? "/rosout"`, where
`defaultTopicToRender = availableTopics[0]?.name`. -/
def topicToRender (topics : List TopicDescriptor) (allowed : List String)
    (explicitChoice : Option String) : String :=
  match explicitChoice with
  | some t => t
  | none =>
    match (availableTopics topics allowed).head? with
    | some topic => topic.name
    | none => "/rosout"

/-- A message event as delivered by `useMessagesByTopic`: the originating
topic and the message payload (the fields the panel reads from it). -/
structure MessageEvent where
  topic : String
  message : LogRecord
deriving DecidableEq, Repr

/-! ### Seen node names (`seenNodeNames` of `panels/Log/index.tsx`) -/

/-- Insertion into a JS `Set` (insertion order preserved, duplicates
ignored): `Set.prototype.add`. -/
def setAdd (s : List String) (x : String) : List String :=
  if x ∈ s then s else s ++ [x]

/-- One pass of the `seenNodeNames` memo body: for each message event,
add `msgEvent.message.name` to the cache when it is defined. -/
def seenNodeNamesUpdate (cache : List String) (msgEvents : List MessageEvent) :
    List String :=
  msgEvents.foldl
    (fun acc msgEvent =>
      match msgEvent.message.name with
      | some name => setAdd acc name
      | none => acc)
    cache

/-- The seen-node-name cache after a sequence of renders.  Each trace entry
is the selected topic at that render paired with that render's message
batch.  The cache cell is a `useRef` initialised once per panel instance;
the update body never reads the selected topic and nothing in the panel
clears the cell, so a change of the selected topic leaves the cache as it
was. -/
def seenAfterTrace (trace : List (String × List MessageEvent)) : List String :=
  trace.foldl (fun cache entry => seenNodeNamesUpdate cache entry.2) []

/-! ### Cell rendering (`onRenderCell` and `datatypeByTopic`) -/

/-- `Map.prototype.set`: replace the value when the key is present,
otherwise append the pair. -/
def mapSet (m : List (String × String)) (k v : String) :
    List (String × String) :=
  if m.any (fun p => p.1 == k) then
    m.map fun p => if p.1 == k then (k, v) else p
  else
    m ++ [(k, v)]

/-- `Map.prototype.get`: the value of the first pair with the key. -/
def mapGet (m : List (String × String)) (k : String) : Option String :=
  (m.find? fun p => p.1 == k).map (·.2)

/-- `datatypeByTopic` of `panels/Log/index.tsx`: a map from topic name to
datatype, built by iterating the topic list with `Map.set`. -/
def datatypeByTopic (topics : List TopicDescriptor) :
    List (String × String) :=
  topics.foldl (fun m topic => mapSet m topic.name topic.datatype) []

/-- `onRenderCell` of `panels/Log/index.tsx`.  A `none` result is the
`return;` branch: no element is produced for the cell.  When a datatype is
registered for the item's topic, the produced cell carries the two inputs
of the normalization step (`normalizedLogMessage(datatype, item.message)`);
the normalization itself is outside the claim. -/
def onRenderCell (dbt : List (String × String)) (item : Option MessageEvent) :
    Option (String × LogRecord) :=
  match item with
  | none => none
  | some it =>
    match mapGet dbt it.topic with
    | none => none
    | some datatype => some (datatype, it.message)

/-! ### Autoscroll controller -/

/-- The scrollable viewport: current offset and content height.  When the
DOM handle is detached, `PanelState.div` is `none`. -/
structure Viewport where
  scrollTop : Int
  scrollHeight : Int
deriving DecidableEq, Repr

/-- The mutable state of the autoscroll controller:
`hasUserScrolled` (React state), `scrollByUpdate` (the one-shot ref flag),
and the viewport handle `divRef.current`. -/
structure PanelState where
  hasUserScrolled : Bool
  scrollByUpdate : Bool
  div : Option Viewport
deriving DecidableEq, Repr

/-- `scrollToBottom` of `panels/Log/index.tsx`: if the viewport handle is
null, return; otherwise set `scrollTop` to `scrollHeight`. -/
def scrollToBottom (s : PanelState) : PanelState :=
  match s.div with
  | none => s
  | some d => { s with div := some { d with scrollTop := d.scrollHeight } }

/-- `scrollToBottomAction` of `panels/Log/index.tsx`: clear
`hasUserScrolled`, set the one-shot flag, then scroll to bottom. -/
def scrollToBottomAction (s : PanelState) : PanelState :=
  scrollToBottom { s with hasUserScrolled := false, scrollByUpdate := true }

/-- The scroll-event listener installed by the `useLayoutEffect`: a scroll
event with the one-shot flag unset marks a manual scroll; the flag is
cleared either way. -/
def scrollListener (s : PanelState) : PanelState :=
  if s.scrollByUpdate then
    { s with scrollByUpdate := false }
  else
    { s with hasUserScrolled := true, scrollByUpdate := false }

/-- `onPagesUpdated` of the `List` element: when the user has not scrolled
manually, set the one-shot flag and scroll to bottom. -/
def onPagesUpdated (s : PanelState) : PanelState :=
  if s.hasUserScrolled then s
  else scrollToBottom { s with scrollByUpdate := true }

/-- The external events the controller reacts to. -/
inductive PanelEvent
  | newContent
  | scrollEvent
  | jumpToBottom
deriving DecidableEq, Repr

/-- One reaction of the controller, together with the number of
programmatic scroll-to-bottom calls it performs (0 or 1). -/
def panelStep (s : PanelState) : PanelEvent → PanelState × Nat
  | .newContent =>
    if s.hasUserScrolled then (s, 0)
    else (scrollToBottom { s with scrollByUpdate := true }, 1)
  | .scrollEvent => (scrollListener s, 0)
  | .jumpToBottom => (scrollToBottomAction s, 1)

/-- Run a sequence of events, accumulating the programmatic-scroll count. -/
def panelRun (s : PanelState) : List PanelEvent → PanelState × Nat
  | [] => (s, 0)
  | e :: es =>
    let r := panelStep s e
    let rest := panelRun r.1 es
    (rest.1, r.2 + rest.2)

/-- Visibility of the "Scroll to bottom" affordance:
`hasUserScrolled && <IconButton .../>` in the JSX. -/
def affordanceVisible (s : PanelState) : Bool :=
  s.hasUserScrolled

/-- The controller is in state `Paused` exactly when the user has scrolled
manually; otherwise it is `Following` (spec section 4.3). -/
def paused (s : PanelState) : Bool :=
  s.hasUserScrolled

/-! ### Timestamp component (`components/Timestamp.tsx`) -/

/-- A `Time` value: seconds and nanoseconds. -/
structure Time where
  sec : Int
  nsec : Int
deriving DecidableEq, Repr

/-- `DURATION_20_YEARS_SEC` of `components/Timestamp.tsx`. -/
def DURATION_20_YEARS_SEC : Int := 20 * 365 * 24 * 60 * 60

/-- `isAbsoluteTime`: values "too small" to be absolute epoch-based times
are treated as relative durations. -/
def isAbsoluteTime (time : Time) : Bool :=
  decide (time.sec > DURATION_20_YEARS_SEC)

/-- The shape of the `Timestamp` component's output: either the raw
`seconds.nanoseconds` string alone, or the date-and-formatted-time
layout. -/
inductive TimestampRender
  | rawOnly
  | dateAndTime
deriving DecidableEq, Repr

/-- The branch taken by the `Timestamp` component: the early `return`
renders only `rawTimeStr` when `!isAbsoluteTime(time)`. -/
def timestampRender (t : Time) : TimestampRender :=
  if !(isAbsoluteTime t) then .rawOnly else .dateAndTime

/-! ### Helper lemmas -/

theorem listContains_iff_infix (needle hay : List Char) :
    listContains needle hay = true ↔ needle <:+: hay := by
  induction hay with
  | nil =>
    simp [listContains, List.isEmpty_iff]
  | cons c rest ih =>
    rw [listContains]
    simp only [Bool.or_eq_true, ih, List.isPrefixOf_iff_prefix]
    exact ( List.infix_cons_iff).symm

theorem strIncludes_iff (haystack needle : String) :
    strIncludes haystack needle = true ↔ needle.toList <:+: haystack.toList :=
  listContains_iff_infix needle.toList haystack.toList

theorem matchesFilter_iff (F : FilterSpec) (r : LogRecord) :
    matchesFilter F r = true ↔
      F.minLogLevel ≤ r.level ∧
        (F.searchTerms = [] ∨
          ∃ t ∈ F.searchTerms,
            t.toList <:+: r.message.toList ∨
              t.toList <:+: (r.name.getD "").toList) := by
  rw [matchesFilter]
  simp [List.any_eq_true, List.isEmpty_iff, strIncludes_iff]

theorem head?_filter {α : Type} (p : α → Bool) (l : List α) :
    (l.filter p).head? = l.find? p := by
  induction l with
  | nil => rfl
  | cons a l ih =>
    by_cases h : p a <;> simp [List.filter_cons, List.find?_cons, h, ih]

theorem mem_setAdd_of_mem (s : List String) (x y : String) (h : y ∈ s) :
    y ∈ setAdd s x := by
  rw [setAdd]
  split <;> simp [h]

theorem self_mem_setAdd (s : List String) (x : String) : x ∈ setAdd s x := by
  rw [setAdd]
  split <;> simp_all

theorem mem_seenNodeNamesUpdate_of_mem (msgs : List MessageEvent)
    (cache : List String) (x : String) (h : x ∈ cache) :
    x ∈ seenNodeNamesUpdate cache msgs := by
  induction msgs generalizing cache with
  | nil => exact h
  | cons m ms ih =>
    rw [seenNodeNamesUpdate, List.foldl_cons]
    cases hn : m.message.name with
    | none => exact ih cache h
    | some n => exact ih (setAdd cache n) (mem_setAdd_of_mem cache n x h)

theorem name_mem_seenNodeNamesUpdate (msgs : List MessageEvent)
    (cache : List String) (m : MessageEvent) (n : String)
    (hm : m ∈ msgs) (hn : m.message.name = some n) :
    n ∈ seenNodeNamesUpdate cache msgs := by
  induction msgs generalizing cache with
  | nil => cases hm
  | cons m₀ ms ih =>
    rw [seenNodeNamesUpdate, List.foldl_cons]
    rcases List.mem_cons.mp hm with heq | htail
    · subst heq
      rw [hn]
      exact mem_seenNodeNamesUpdate_of_mem ms _ n (self_mem_setAdd cache n)
    · cases m₀.message.name with
      | none => exact ih _ htail
      | some n₀ => exact ih _ htail

theorem mem_foldTrace_of_mem (trace : List (String × List MessageEvent))
    (init : List String) (x : String) (h : x ∈ init) :
    x ∈ trace.foldl (fun cache entry => seenNodeNamesUpdate cache entry.2) init := by
  induction trace generalizing init with
  | nil => exact h
  | cons e es ih =>
    exact ih _ (mem_seenNodeNamesUpdate_of_mem e.2 init x h)

theorem name_mem_foldTrace (trace : List (String × List MessageEvent))
    (init : List String) (entry : String × List MessageEvent)
    (m : MessageEvent) (n : String)
    (he : entry ∈ trace) (hm : m ∈ entry.2) (hn : m.message.name = some n) :
    n ∈ trace.foldl (fun cache e => seenNodeNamesUpdate cache e.2) init := by
  induction trace generalizing init with
  | nil => cases he
  | cons e es ih =>
    rcases List.mem_cons.mp he with heq | htail
    · subst heq
      exact mem_foldTrace_of_mem es _ n
        (name_mem_seenNodeNamesUpdate entry.2 init m n hm hn)
    · exact ih _ htail

theorem scrollToBottom_hasUserScrolled (s : PanelState) :
    (scrollToBottom s).hasUserScrolled = s.hasUserScrolled := by
  rw [scrollToBottom]
  cases s.div <;> rfl

theorem scrollToBottom_scrollByUpdate (s : PanelState) :
    (scrollToBottom s).scrollByUpdate = s.scrollByUpdate := by
  rw [scrollToBottom]
  cases s.div <;> rfl

theorem scrollListener_hasUserScrolled_of_true (s : PanelState)
    (h : s.hasUserScrolled = true) :
    (scrollListener s).hasUserScrolled = true := by
  rw [scrollListener]
  split <;> simp [h]

theorem panelRun_paused (es : List PanelEvent)
    (hjump : PanelEvent.jumpToBottom ∉ es) (s : PanelState)
    (hs : s.hasUserScrolled = true) :
    (panelRun s es).2 = 0 ∧ (panelRun s es).1.hasUserScrolled = true := by
  induction es generalizing s with
  | nil => exact ⟨rfl, hs⟩
  | cons e es ih =>
    have hne : e ≠ PanelEvent.jumpToBottom := fun h => hjump (h ▸ List.mem_cons_self e es)
    have hjump' : PanelEvent.jumpToBottom ∉ es := fun h => hjump (List.mem_cons_of_mem e h)
    cases e with
    | newContent =>
      rw [panelRun]
      have hstep : panelStep s .newContent = (s, 0) := by
        rw [panelStep]
        simp [hs]
      rw [hstep]
      have := ih hjump' s hs
      simpa using this
    | scrollEvent =>
      rw [panelRun]
      have hstep : panelStep s .scrollEvent = (scrollListener s, 0) := rfl
      rw [hstep]
      have := ih hjump' (scrollListener s) (scrollListener_hasUserScrolled_of_true s hs)
      simpa using this
    | jumpToBottom => exact absurd rfl hne

/-! ### Claim theorems -/

/-- C1: a record `r` of `R` is in `filter(R, F)` iff
`r.level >= F.minLogLevel` and (`F.searchTerms` is empty, or at least one
term of `F.searchTerms` is a substring of `r.message` or of `r.name`); and
when `F.searchTerms` is empty, `filter(R, F)` is exactly the records of
`R` whose level is `>= F.minLogLevel`. -/
theorem filterMessages_mem_iff (R : List LogRecord) (F : FilterSpec) :
    (∀ r ∈ R,
      (r ∈ filterMessages R F ↔
        F.minLogLevel ≤ r.level ∧
          (F.searchTerms = [] ∨
            ∃ t ∈ F.searchTerms,
              t.toList <:+: r.message.toList ∨
                t.toList <:+: (r.name.getD "").toList))) ∧
    (F.searchTerms = [] →
      filterMessages R F = R.filter fun r => decide (F.minLogLevel ≤ r.level)) := by
  constructor
  · intro r hr
    rw [filterMessages, List.mem_filter]
    simp only [hr, true_and]
    exact matchesFilter_iff F r
  · intro h
    have hfun : matchesFilter F = fun r => decide (F.minLogLevel ≤ r.level) := by
      funext r
      rw [matchesFilter, h]
      simp
    rw [filterMessages, hfun]

/-- C1 witness: the spec scenario, `minLogLevel = 0`,
`searchTerms = ["fail"]` on `[{1,"hello",nodeA}, {3,"fail",nodeB}]` keeps
the second record. -/
theorem filterMessages_mem_iff_witness :
    (⟨3, some "nodeB", "fail"⟩ : LogRecord) ∈
      filterMessages
        [⟨1, some "nodeA", "hello"⟩, ⟨3, some "nodeB", "fail"⟩]
        ⟨0, ["fail"]⟩ :=
  ((filterMessages_mem_iff
        [⟨1, some "nodeA", "hello"⟩, ⟨3, some "nodeB", "fail"⟩]
        ⟨0, ["fail"]⟩).1
      ⟨3, some "nodeB", "fail"⟩ (by simp)).mpr
    ⟨by norm_num,
      Or.inr ⟨"fail", by simp, Or.inl (List.infix_refl _)⟩⟩

/-- C2: `filter(R, F)` is an order-preserving subsequence of `R`; every
output element satisfies the predicate; every element of `R` absent from
the output fails the predicate. -/
theorem filterMessages_sublist (R : List LogRecord) (F : FilterSpec) :
    List.Sublist (filterMessages R F) R ∧
    (∀ r ∈ filterMessages R F, matchesFilter F r = true) ∧
    (∀ r ∈ R, r ∉ filterMessages R F → matchesFilter F r = false) := by
  refine ⟨List.filter_sublist R, ?_, ?_⟩
  · intro r hr
    exact (List.mem_filter.mp hr).2
  · intro r hr hnot
    cases hp : matchesFilter F r with
    | false => rfl
    | true => exact absurd (List.mem_filter.mpr ⟨hr, hp⟩) hnot

/-- C2 witness: the level-threshold scenario from the spec; the kept and
the dropped record behave as the theorem states. -/
theorem filterMessages_sublist_witness :
    matchesFilter ⟨2, []⟩ (⟨3, some "nodeB", "fail"⟩ : LogRecord) = true ∧
    matchesFilter ⟨2, []⟩ (⟨1, some "nodeA", "hello"⟩ : LogRecord) = false :=
  ⟨(filterMessages_sublist
        [⟨1, some "nodeA", "hello"⟩, ⟨3, some "nodeB", "fail"⟩] ⟨2, []⟩).2.1
      ⟨3, some "nodeB", "fail"⟩ (by decide),
    (filterMessages_sublist
        [⟨1, some "nodeA", "hello"⟩, ⟨3, some "nodeB", "fail"⟩] ⟨2, []⟩).2.2
      ⟨1, some "nodeA", "hello"⟩ (by decide) (by decide)⟩

/-- C7: the message filter is idempotent:
`filter(filter(R, F), F) = filter(R, F)`. -/
theorem filterMessages_idem (R : List LogRecord) (F : FilterSpec) :
    filterMessages (filterMessages R F) F = filterMessages R F := by
  rw [filterMessages, filterMessages, List.filter_filter]
  simp only [Bool.and_self]

/-- C3: the selected topic is the explicit choice whenever present (even
when stale); otherwise the name of the first topic in original order whose
datatype is allowed; otherwise `"/rosout"`.  Totality of `topicToRender`
shows no error is raised for a stale explicit choice. -/
theorem topicToRender_resolution (topics : List TopicDescriptor)
    (allowed : List String) :
    (∀ c : String, topicToRender topics allowed (some c) = c) ∧
    (∀ t : TopicDescriptor,
      topics.find? (fun t' => allowed.contains t'.datatype) = some t →
        topicToRender topics allowed none = t.name) ∧
    (topics.find? (fun t' => allowed.contains t'.datatype) = none →
      topicToRender topics allowed none = "/rosout") := by
  refine ⟨fun c => rfl, ?_, ?_⟩
  · intro t ht
    rw [topicToRender]
    rw [availableTopics, head?_filter, ht]
  · intro hnone
    rw [topicToRender]
    rw [availableTopics, head?_filter, hnone]

/-- C3 witness: the spec scenario, `topics = [{a,T1},{b,T2}]`,
`allowed = {T1}`: no explicit choice gives `"a"`; explicit choice `"z"` is
returned although absent from the topics. -/
theorem topicToRender_resolution_witness :
    topicToRender [⟨"a", "T1"⟩, ⟨"b", "T2"⟩] ["T1"] none = "a" ∧
    topicToRender [⟨"a", "T1"⟩, ⟨"b", "T2"⟩] ["T1"] (some "z") = "z" :=
  ⟨(topicToRender_resolution [⟨"a", "T1"⟩, ⟨"b", "T2"⟩] ["T1"]).2.1
      ⟨"a", "T1"⟩ (by decide),
    (topicToRender_resolution [⟨"a", "T1"⟩, ⟨"b", "T2"⟩] ["T1"]).1 "z"⟩

/-- C4: in state `Following` (`hasUserScrolled = false`), a new-content
arrival performs exactly one programmatic scroll-to-bottom, applied to the
state with the one-shot flag already set; it never transitions to
`Paused`, and it leaves the one-shot flag set so the echo scroll event is
not misread as manual.  A scroll event delivered while the flag is unset
transitions to `Paused`, after which every event sequence free of the
jump-to-bottom action performs no programmatic scroll and stays
`Paused`. -/
theorem autoscroll_following (s : PanelState)
    (hs : s.hasUserScrolled = false) :
    (panelStep s .newContent).2 = 1 ∧
    (panelStep s .newContent).1 =
      scrollToBottom { s with scrollByUpdate := true } ∧
    (panelStep s .newContent).1.hasUserScrolled = false ∧
    (panelStep s .newContent).1.scrollByUpdate = true ∧
    (s.scrollByUpdate = false →
      (panelStep s .scrollEvent).1.hasUserScrolled = true) ∧
    (∀ es : List PanelEvent, PanelEvent.jumpToBottom ∉ es →
      ∀ s' : PanelState, s'.hasUserScrolled = true →
        (panelRun s' es).2 = 0 ∧ (panelRun s' es).1.hasUserScrolled = true) := by
  have hstep : panelStep s .newContent =
      (scrollToBottom { s with scrollByUpdate := true }, 1) := by
    rw [panelStep]
    simp [hs]
  refine ⟨by rw [hstep], by rw [hstep], ?_, ?_, ?_, ?_⟩
  · rw [hstep]
    rw [scrollToBottom_hasUserScrolled]
    exact hs
  · rw [hstep]
    rw [scrollToBottom_scrollByUpdate]
  · intro hflag
    have : panelStep s .scrollEvent = (scrollListener s, 0) := rfl
    rw [this]
    rw [scrollListener]
    simp [hflag]
  · intro es hjump s' hs'
    exact panelRun_paused es hjump s' hs'

/-- C4 witness: from the initial state, three new records perform three
programmatic scrolls without pausing; from a paused state, new content and
scroll events perform none. -/
theorem autoscroll_following_witness :
    (panelStep ⟨false, false, none⟩ .newContent).2 = 1 ∧
    (panelRun ⟨true, false, none⟩ [.newContent, .scrollEvent]).2 = 0 :=
  ⟨(autoscroll_following ⟨false, false, none⟩ rfl).1,
    ((autoscroll_following ⟨false, false, none⟩ rfl).2.2.2.2.2
        [.newContent, .scrollEvent] (by decide)
        ⟨true, false, none⟩ rfl).1⟩

/-- C5: `Paused → Following` happens only via the jump-to-bottom action;
that action performs exactly one programmatic scroll-to-bottom and lands
in `Following`; the scroll-to-bottom affordance is visible exactly when
the controller is `Paused`. -/
theorem autoscroll_jump_only (s : PanelState) (e : PanelEvent)
    (hs : s.hasUserScrolled = true) :
    ((panelStep s e).1.hasUserScrolled = false → e = .jumpToBottom) ∧
    (panelStep s .jumpToBottom).2 = 1 ∧
    (panelStep s .jumpToBottom).1.hasUserScrolled = false ∧
    (affordanceVisible s = paused s) := by
  refine ⟨?_, rfl, ?_, rfl⟩
  · intro hfall
    cases e with
    | newContent =>
      rw [panelStep] at hfall
      simp [hs] at hfall
    | scrollEvent =>
      have : (panelStep s .scrollEvent).1 = scrollListener s := rfl
      rw [this, scrollListener_hasUserScrolled_of_true s hs] at hfall
      cases hfall
    | jumpToBottom => rfl
  · have : (panelStep s .jumpToBottom).1 = scrollToBottomAction s := rfl
    rw [this, scrollToBottomAction, scrollToBottom_hasUserScrolled]

/-- C5 witness: at a concrete paused state, the jump-to-bottom action is
the event that unpauses, performs one scroll, and the affordance is
visible. -/
theorem autoscroll_jump_only_witness :
    (panelStep ⟨true, false, some ⟨0, 7⟩⟩ .jumpToBottom).2 = 1 ∧
    (panelStep ⟨true, false, some ⟨0, 7⟩⟩ .jumpToBottom).1.hasUserScrolled = false :=
  ⟨(autoscroll_jump_only ⟨true, false, some ⟨0, 7⟩⟩ .jumpToBottom rfl).2.1,
    (autoscroll_jump_only ⟨true, false, some ⟨0, 7⟩⟩ .jumpToBottom rfl).2.2.1⟩

/-- C9: when the viewport handle is detached (`divRef.current` is null),
`scrollToBottom` is a silent no-op: it returns the state unchanged.
Totality of `scrollToBottom` shows no error is raised. -/
theorem scrollToBottom_noop (s : PanelState) (h : s.div = none) :
    scrollToBottom s = s := by
  rw [scrollToBottom, h]

/-- C9 witness: the no-op at a concrete detached state. -/
theorem scrollToBottom_noop_witness :
    scrollToBottom ⟨false, true, none⟩ = ⟨false, true, none⟩ :=
  scrollToBottom_noop ⟨false, true, none⟩ rfl

/-- C6 counterexample: the seen-name cache is NOT reset when the selected
topic changes.  In a trace whose first render is on topic `/a` with one
record named `node1` and whose second render follows a change to topic
`/b`, the cache after the topic change still holds `node1` instead of
being empty: the `useRef` cell persists and nothing clears it. -/
theorem seenNodeNames_not_reset :
    seenAfterTrace
        [("/a", [⟨"/a", ⟨1, some "node1", "hello"⟩⟩]), ("/b", [])] =
      ["node1"] ∧
    (["node1"] : List String) ≠ [] := by
  constructor
  · rfl
  · decide

/-- C6 (amended): the seen-name set grows monotonically — processing a
batch never removes a previously observed name and adds every defined name
of the batch — and it is NOT reset when the selected topic changes: every
name observed at any earlier render of a trace, whatever topic that render
used, is still in the cache at the end of the trace. -/
theorem seenNodeNames_monotone (cache : List String)
    (msgs : List MessageEvent) :
    (∀ x ∈ cache, x ∈ seenNodeNamesUpdate cache msgs) ∧
    (∀ m ∈ msgs, ∀ n : String, m.message.name = some n →
      n ∈ seenNodeNamesUpdate cache msgs) ∧
    (∀ trace : List (String × List MessageEvent),
      ∀ entry ∈ trace, ∀ m ∈ entry.2, ∀ n : String,
        m.message.name = some n → n ∈ seenAfterTrace trace) := by
  refine ⟨?_, ?_, ?_⟩
  · intro x hx
    exact mem_seenNodeNamesUpdate_of_mem msgs cache x hx
  · intro m hm n hn
    exact name_mem_seenNodeNamesUpdate msgs cache m n hm hn
  · intro trace entry he m hm n hn
    exact name_mem_foldTrace trace [] entry m n he hm hn

/-- C6 (amended) witness: a previously cached name survives a batch, the
batch's own name is added, and a name seen on topic `/a` is still present
after a change to topic `/b`. -/
theorem seenNodeNames_monotone_witness :
    "old" ∈ seenNodeNamesUpdate ["old"] [⟨"/a", ⟨1, some "new", ""⟩⟩] ∧
    "new" ∈ seenNodeNamesUpdate ["old"] [⟨"/a", ⟨1, some "new", ""⟩⟩] ∧
    "node1" ∈ seenAfterTrace
      [("/a", [⟨"/a", ⟨1, some "node1", "hello"⟩⟩]), ("/b", [])] :=
  ⟨(seenNodeNames_monotone ["old"] [⟨"/a", ⟨1, some "new", ""⟩⟩]).1
      "old" (by decide),
    (seenNodeNames_monotone ["old"] [⟨"/a", ⟨1, some "new", ""⟩⟩]).2.1
      ⟨"/a", ⟨1, some "new", ""⟩⟩ (by decide) "new" rfl,
    (seenNodeNames_monotone [] []).2.2
      [("/a", [⟨"/a", ⟨1, some "node1", "hello"⟩⟩]), ("/b", [])]
      ("/a", [⟨"/a", ⟨1, some "node1", "hello"⟩⟩]) (by decide)
      ⟨"/a", ⟨1, some "node1", "hello"⟩⟩ (by decide) "node1" rfl⟩

/-- C8: a record whose topic has no registered datatype is silently
dropped by the cell-render step: `onRenderCell` returns nothing.
Totality of `onRenderCell` shows no error or exception is raised. -/
theorem onRenderCell_unknown_datatype (topics : List TopicDescriptor)
    (item : MessageEvent)
    (h : mapGet (datatypeByTopic topics) item.topic = none) :
    onRenderCell (datatypeByTopic topics) (some item) = none := by
  rw [onRenderCell, h]

/-- C8 witness: with no topics registered, a record on topic `/x` renders
to nothing. -/
theorem onRenderCell_unknown_datatype_witness :
    onRenderCell (datatypeByTopic []) (some ⟨"/x", ⟨1, none, ""⟩⟩) = none :=
  onRenderCell_unknown_datatype [] ⟨"/x", ⟨1, none, ""⟩⟩ rfl

/-- C10: the `Timestamp` component renders only the raw
seconds.nanoseconds string iff `t.sec <= 630720000`
(`20 * 365 * 24 * 60 * 60`); the boundary value itself is treated as
relative, not absolute. -/
theorem timestampRender_rawOnly_iff :
    (∀ t : Time, timestampRender t = .rawOnly ↔ t.sec ≤ 630720000) ∧
    timestampRender ⟨630720000, 0⟩ = .rawOnly := by
  constructor
  · intro t
    rw [timestampRender, isAbsoluteTime, DURATION_20_YEARS_SEC]
    by_cases h : t.sec ≤ 630720000
    · have : ¬ (t.sec > 20 * 365 * 24 * 60 * 60) := by omega
      simp [this, h]
    · have : t.sec > 20 * 365 * 24 * 60 * 60 := by omega
      simp [this, h]
  · rfl

end Studio
